import Mathlib

/-!
Verification of the kalshi-market-scanner pipeline (`main.py`): pagination,
enrichment, sorting, spread calculation and table rendering, embedded
shallowly.  Prices are integer cents (`Option Nat` when the field may be
absent), instants are integer epoch seconds, and fractional hours are exact
rationals; Python `int()` truncation toward zero and float `%` are embedded
explicitly.
-/

/-- Constant `HOURS_THRESHOLD` from `main.py`. -/
def HOURS_THRESHOLD : Nat := 24

/-- Constant `SPREAD_THRESHOLD_CENTS` from `main.py`. -/
def SPREAD_THRESHOLD_CENTS : Int := 10

/-- A raw market record as consumed by `main.py`: optional integer-cent
quote fields and a close time already normalized to epoch seconds. -/
structure Market where
  title : String
  yes_bid : Option Nat
  yes_ask : Option Nat
  no_bid : Option Nat
  last_price : Option Nat
  close_time : Int
deriving DecidableEq

/-- The enriched dictionary built at lines 87-91 of `main.py`:
`{"market": m, "hours_until_close": h, "close_time": t}`. -/
structure MarketView where
  market : Market
  hours_until_close : Rat
  close_time : Int
deriving DecidableEq

/-- One page returned by `client.get_markets`: a batch of markets and the
pagination cursor (`None` or a string). -/
structure Page where
  markets : List Market
  cursor : Option String
deriving DecidableEq

/-- Python truthiness of the cursor at line 74 (`if not cursor: break`):
`None` and the empty string are falsy. -/
def cursorTruthy : Option String → Bool
  | none => false
  | some s => !s.isEmpty

/-- The `while True` fetch loop of lines 63-75, run against a server modelled
as a stream `f` of page responses.  `fuel` bounds the number of requests the
loop is allowed to issue and `i` is the index of the next request; `none`
means the loop has not yet reached its `break` within `fuel` requests. -/
def fetchSteps (f : Nat → Page) : Nat → Nat → Option (List Market)
  | 0, _ => none
  | fuel + 1, i =>
    let p := f i
    if cursorTruthy p.cursor then
      match fetchSteps f fuel (i + 1) with
      | none => none
      | some ms => some (p.markets ++ ms)
    else
      some p.markets

/-- Concatenation of the markets of pages `0..k` of the stream `f`, in
request order. -/
def pagesConcat (f : Nat → Page) (k : Nat) : List Market :=
  ((List.range (k + 1)).map fun i => (f i).markets).flatten

/-- The enrichment loop of lines 78-91: compute
`hours_until_close = (close_time - now) / 3600` and keep exactly the
entries with `hours_until_close > 0`, preserving order. -/
def enrich (markets : List Market) (now : Int) : List MarketView :=
  markets.filterMap fun market =>
    let hours_until_close : Rat := ((market.close_time - now : Int) : Rat) / 3600
    if 0 < hours_until_close then
      some { market := market, hours_until_close := hours_until_close,
             close_time := market.close_time }
    else
      none

/-- The sort key comparison used at line 93
(`result.sort(key=lambda x: x["hours_until_close"])`). -/
def viewLE (a b : MarketView) : Bool :=
  decide (a.hours_until_close ≤ b.hours_until_close)

/-- Line 93: Python `list.sort` is a stable sort by the key, embedded as a
stable merge sort with comparison `viewLE`. -/
def sortViews (l : List MarketView) : List MarketView :=
  l.mergeSort viewLE

/-- Lines 77-94 of `get_markets_closing_soon`: the post-fetch stage that
enriches the accumulated markets and sorts them by time to close. -/
def enrichAndSort (markets : List Market) (now : Int) : List MarketView :=
  sortViews (enrich markets now)

/-- Python `int()` on a real value: truncation toward zero. -/
def pyInt (x : Rat) : Int :=
  if x < 0 then -⌊-x⌋ else ⌊x⌋

/-- Python `%` on reals: `x - y * floor(x / y)` (sign follows the divisor). -/
def pyMod (x y : Rat) : Rat :=
  x - y * ((⌊x / y⌋ : Int) : Rat)

/-- `format_time_until` from lines 97-109 of `main.py`. -/
def format_time_until (hours : Rat) : String :=
  if hours < 1 then
    toString (pyInt (hours * 60)) ++ "m"
  else if hours < 24 then
    let h := pyInt hours
    let m := pyInt ((hours - (h : Rat)) * 60)
    toString h ++ "h " ++ toString m ++ "m"
  else
    let days := pyInt (hours / 24)
    let h := pyInt (pyMod hours 24)
    toString days ++ "d " ++ toString h ++ "h"

/-- Two-digit zero-padded rendering of a number below 100. -/
def pad2 (n : Nat) : String :=
  if n < 10 then "0" ++ toString n else toString n

/-- `cents_to_dollars` from lines 112-114: `f"${cents / 100:.2f}"`.  For an
integer number of cents the float division and two-decimal formatting are
exact, so the result is the sign, the integer dollars and the zero-padded
cents remainder. -/
def cents_to_dollars (cents : Int) : String :=
  let sign := if cents < 0 then "-" else ""
  let a := cents.natAbs
  "$" ++ sign ++ toString (a / 100) ++ "." ++ pad2 (a % 100)

/-- `calculate_spread` from lines 117-131: missing quote fields default to 0
(`getattr(..., None) or 0`), the spread is `yes_ask - yes_bid` only when both
are truthy (non-zero), and `is_wide` is `spread > SPREAD_THRESHOLD_CENTS`. -/
def calculate_spread (market : Market) : Int × Bool :=
  let yes_bid : Nat := market.yes_bid.getD 0
  let yes_ask : Nat := market.yes_ask.getD 0
  let spread : Int :=
    if yes_bid ≠ 0 ∧ yes_ask ≠ 0 then (yes_ask : Int) - (yes_bid : Int) else 0
  (spread, decide (SPREAD_THRESHOLD_CENTS < spread))

/-- Python `x or d` on an optional integer: the value when present and
non-zero, otherwise the default. -/
def truthyOr (x : Option Nat) (d : Int) : Int :=
  match x with
  | some v => if v ≠ 0 then (v : Int) else d
  | none => d

/-- Line 155: `yes_price = market.yes_bid or market.last_price or 0`. -/
def yes_price (m : Market) : Int :=
  truthyOr m.yes_bid (truthyOr m.last_price 0)

/-- Line 156: `no_price = market.no_bid or (100 - yes_price if yes_price else 0)`. -/
def no_price (m : Market) : Int :=
  truthyOr m.no_bid (if yes_price m ≠ 0 then 100 - yes_price m else 0)

/-- Line 172: the rendered yes-price cell, a dash when the value is falsy. -/
def yesCell (m : Market) : String :=
  if yes_price m ≠ 0 then cents_to_dollars (yes_price m) else "-"

/-- Line 173: the rendered no-price cell, a dash when the value is falsy. -/
def noCell (m : Market) : String :=
  if no_price m ≠ 0 then cents_to_dollars (no_price m) else "-"

/-- Lines 159-162: the rendered spread cell — a dash unless the spread is
strictly positive, wrapped in the bold-red flag style when `is_wide`. -/
def spreadCell (m : Market) : String :=
  let sw := calculate_spread m
  let spread_str := if 0 < sw.1 then cents_to_dollars sw.1 else "-"
  if sw.2 then "[bold red]" ++ spread_str ++ " ![/bold red]" else spread_str

/-- Lines 166-168: titles longer than 47 characters are cut to 47 and
suffixed with `"..."`. -/
def truncTitle (title : String) : String :=
  if 47 < title.length then title.take 47 ++ "..." else title

/-- Lines 170-176: the five cells of one table row. -/
def renderRow (data : MarketView) : List String :=
  [truncTitle data.market.title,
   yesCell data.market,
   noCell data.market,
   spreadCell data.market,
   format_time_until data.hours_until_close]

/-- Whether a view increments `wide_spread_count` (line 163). -/
def isWideView (v : MarketView) : Bool :=
  (calculate_spread v.market).2

/-- The value of `wide_spread_count` after the rendering loop. -/
def wideCount (l : List MarketView) : Nat :=
  l.countP isWideView

/-- Line 179: the always-printed total-count summary line. -/
def totalLine (l : List MarketView) : String :=
  "\n[bold]Total markets:[/bold] " ++ toString l.length

/-- Lines 181-185: the wide-spread summary line. -/
def wideLine (n : Nat) : String :=
  "[bold red]Wide spreads (>" ++ cents_to_dollars SPREAD_THRESHOLD_CENTS
    ++ "):[/bold red] " ++ toString n

/-- What `display_markets` emits: either the single informational message for
empty input, or a table with rows, the total line, and the optional
wide-spread line. -/
inductive DisplayOutput where
  | empty (msg : String) : DisplayOutput
  | table (rows : List (List String)) (total : String) (wide : Option String) : DisplayOutput
deriving DecidableEq

/-- `display_markets` from lines 134-185, as the output it produces. -/
def display_markets (l : List MarketView) : DisplayOutput :=
  match l with
  | [] => .empty ("[yellow]No markets closing in the next 24 hours.[/yellow]")
  | _ =>
    .table (l.map renderRow) (totalLine l)
      (if 0 < wideCount l then some (wideLine (wideCount l)) else none)

/-- A cell string carries the flagged (bold-red) style of line 162. -/
def Flagged (s : String) : Prop :=
  ∃ r, s = "[bold red]" ++ r

/-! ### Helper lemmas -/

lemma truthyOr_eq_default (x : Option Nat) (d : Int) (h : x.getD 0 = 0) :
    truthyOr x d = d := by
  cases x with
  | none => rfl
  | some v =>
    simp only [Option.getD_some] at h
    simp [truthyOr, h]

lemma truthyOr_eq_val (x : Option Nat) (d : Int) (v : Nat) (hx : x = some v)
    (hv : v ≠ 0) : truthyOr x d = (v : Int) := by
  subst hx
  simp [truthyOr, hv]

lemma spread_snd_eq (m : Market) :
    (calculate_spread m).2 = decide (SPREAD_THRESHOLD_CENTS < (calculate_spread m).1) := rfl

lemma not_flagged_dollar (r : String) : ¬ Flagged ("$" ++ r) := by
  rintro ⟨s, h⟩
  have h2 := congrArg String.data h
  simp [String.data_append] at h2

lemma not_flagged_dash : ¬ Flagged "-" := by
  rintro ⟨s, h⟩
  have h2 := congrArg String.data h
  simp [String.data_append] at h2

lemma cents_to_dollars_dollar (c : Int) :
    ∃ r, cents_to_dollars c = "$" ++ r := by
  refine ⟨(if c < 0 then "-" else "") ++ toString (c.natAbs / 100) ++ "." ++ pad2 (c.natAbs % 100), ?_⟩
  rw [cents_to_dollars]
  simp [String.append_assoc]

lemma flatten_range_succ_shift (g : Nat → List Market) (i n : Nat) :
    ((List.range (n + 1)).map fun j => g (i + j)).flatten =
      g i ++ ((List.range n).map fun j => g (i + 1 + j)).flatten := by
  rw [List.range_succ_eq_map]
  simp only [List.map_cons, List.map_map, List.flatten_cons, Nat.add_zero]
  congr 1
  apply congrArg
  apply List.map_congr_left
  intro j _
  simp only [Function.comp_apply, Nat.succ_eq_add_one]
  congr 1
  omega

lemma fetchSteps_stops (f : Nat → Page) :
    ∀ (k i : Nat), (∀ j, j < k → cursorTruthy (f (i + j)).cursor = true) →
      cursorTruthy (f (i + k)).cursor = false →
      ∀ fuel, k + 1 ≤ fuel →
      fetchSteps f fuel i =
        some (((List.range (k + 1)).map fun j => (f (i + j)).markets).flatten) := by
  intro k
  induction k with
  | zero =>
    intro i _ hstop fuel hfuel
    obtain ⟨m, rfl⟩ : ∃ m, fuel = m + 1 := ⟨fuel - 1, by omega⟩
    rw [Nat.add_zero] at hstop
    simp [fetchSteps, hstop, List.range_succ]
  | succ k ih =>
    intro i hrun hstop fuel hfuel
    obtain ⟨m, rfl⟩ : ∃ m, fuel = m + 1 := ⟨fuel - 1, by omega⟩
    have h0 : cursorTruthy (f i).cursor = true := by
      have := hrun 0 (by omega)
      simpa using this
    have hrec := ih (i + 1)
      (fun j hj => by
        have := hrun (j + 1) (by omega)
        simpa [Nat.add_assoc, Nat.add_comm 1 j] using this)
      (by
        have h' := hstop
        have he : i + (k + 1) = i + 1 + k := by omega
        rwa [he] at h')
      m (by omega)
    simp only [fetchSteps, h0, if_pos, hrec]
    congr 1
    exact (flatten_range_succ_shift (fun j => (f j).markets) i (k + 1)).symm

lemma fetchSteps_not_done (f : Nat → Page) :
    ∀ (fuel k i : Nat), fuel ≤ k →
      (∀ j, j < k → cursorTruthy (f (i + j)).cursor = true) →
      fetchSteps f fuel i = none := by
  intro fuel
  induction fuel with
  | zero => intro k i _ _; rfl
  | succ fuel ih =>
    intro k i hle hrun
    have h0 : cursorTruthy (f i).cursor = true := by
      have := hrun 0 (by omega)
      simpa using this
    have hrec := ih (k - 1) (i + 1) (by omega)
      (fun j hj => by
        have := hrun (j + 1) (by omega)
        simpa [Nat.add_assoc, Nat.add_comm 1 j] using this)
    simp [fetchSteps, h0, hrec]

/-! ### Claim C2 -/

/-- Claim C2: against any server response stream whose cursors are eventually
exhausted, the fetch loop has not finished after `k` requests where `k` is the
number of non-empty cursors returned, finishes during request `k + 1` (any fuel
bound of at least `k + 1` yields the same result), and accumulates exactly the
concatenation of the pages' markets in request order; and no bound other than
cursor exhaustion limits the page count, since for every `n` there is a stream
whose first `n` cursors are all non-empty. -/
theorem fetch_pagination_spec :
    (∀ (f : Nat → Page) (k : Nat),
        (∀ j, j < k → cursorTruthy (f j).cursor = true) →
        cursorTruthy (f k).cursor = false →
        (∀ fuel, k + 1 ≤ fuel → fetchSteps f fuel 0 = some (pagesConcat f k)) ∧
          fetchSteps f k 0 = none) ∧
    (∀ n : Nat, ∃ f : Nat → Page,
        (∀ j, j < n → cursorTruthy (f j).cursor = true) ∧
        cursorTruthy (f n).cursor = false) := by
  constructor
  · intro f k hrun hstop
    constructor
    · intro fuel hfuel
      have h := fetchSteps_stops f k 0
        (fun j hj => by simpa using hrun j hj)
        (by simpa using hstop) fuel hfuel
      rw [h, pagesConcat]
      congr 2
      apply List.map_congr_left
      intro j _
      simp
    · exact fetchSteps_not_done f k k 0 le_rfl (fun j hj => by simpa using hrun j hj)
  · intro n
    refine ⟨fun i => if i < n then { markets := [], cursor := some ("x") } else { markets := [], cursor := none }, ?_, ?_⟩
    · intro j hj
      simp only [hj, if_pos, cursorTruthy]
      decide
    · simp [cursorTruthy]

/-! ### Concrete inputs used by witnesses and examples -/

/-- Market closing in 0.5 hours when `now = 0`. -/
def mkt05 : Market :=
  { title := "half hour", yes_bid := none, yes_ask := none, no_bid := none,
    last_price := none, close_time := 1800 }

/-- Market closing in 25 hours when `now = 0`. -/
def mkt25 : Market :=
  { title := "one day plus", yes_bid := none, yes_ask := none, no_bid := none,
    last_price := none, close_time := 90000 }

/-- Market that closed one hour before `now = 0`. -/
def mktPast : Market :=
  { title := "expired", yes_bid := none, yes_ask := none, no_bid := none,
    last_price := none, close_time := -3600 }

/-- The enriched view of `mkt05` at `now = 0`. -/
def view05 : MarketView :=
  { market := mkt05, hours_until_close := 1 / 2, close_time := 1800 }

/-- The enriched view of `mkt25` at `now = 0`. -/
def view25 : MarketView :=
  { market := mkt25, hours_until_close := 25, close_time := 90000 }

/-- A two-page server stream: page 0 carries a non-empty cursor, page 1 ends
pagination. -/
def twoPageStream : Nat → Page := fun i =>
  if i = 0 then { markets := [mkt05], cursor := some ("next") }
  else { markets := [mkt25], cursor := none }

/-- Witness for claim C2 at the concrete two-page stream: the loop is still
running after one request and returns both pages' markets in order once a
second request is allowed. -/
theorem fetch_pagination_witness :
    fetchSteps twoPageStream 2 0 = some (pagesConcat twoPageStream 1) ∧
      fetchSteps twoPageStream 1 0 = none := by
  have h := fetch_pagination_spec.1 twoPageStream 1
    (by intro j hj
        have : j = 0 := by omega
        subst this
        decide)
    (by decide)
  exact ⟨h.1 2 (by omega), h.2⟩

lemma enrich_three : enrich [mkt05, mkt25, mktPast] 0 = [view05, view25] := by
  simp only [enrich, List.filterMap, mkt05, mkt25, mktPast, view05, view25]
  norm_num

lemma sortViews_pair_sorted : sortViews [view05, view25] = [view05, view25] := by
  rw [sortViews]
  apply List.mergeSort_of_sorted
  constructor
  · intro b hb
    simp only [List.mem_singleton] at hb
    subst hb
    simp only [viewLE, view05, view25, decide_eq_true_eq]
    norm_num
  · simp

/-! ### Claim C1 -/

/-- Claim C1 counterexample: with the server-side window filter bypassed, the
pipeline applied to the three markets closing in 0.5 h, 25 h and −1 h at
`now = 0` does not return exactly one view — the 25 h market also survives,
because enrichment drops only entries with non-positive remaining time. -/
theorem pipeline_three_markets_counterexample :
    ¬ (enrichAndSort [mkt05, mkt25, mktPast] 0).length = 1 := by
  rw [enrichAndSort, enrich_three, sortViews]
  simp

/-- Claim C1 amended: with horizon 24 h and the server-side window filter
bypassed so that the three raw markets closing in 0.5 h, 25 h and −1 h are all
returned by the fetch, the enrichment stage returns exactly two views — the
0.5 h one and the 25 h one, in ascending order of time to close; only the
already-past market is dropped, since enrichment filters solely on
`hours_until_close > 0` and the 24 h upper bound is enforced only by the
server-side filter. -/
theorem pipeline_three_markets_amended :
    enrichAndSort [mkt05, mkt25, mktPast] 0 = [view05, view25] := by
  rw [enrichAndSort, enrich_three, sortViews_pair_sorted]

/-! ### Claim C3 -/

/-- Claim C3: for every input list of raw markets and every fixed `now`, every
view produced by the enrichment stage has strictly positive
`hours_until_close`; markets whose remaining time is zero or negative produce
no view. -/
theorem enrich_pos (markets : List Market) (now : Int) :
    ∀ v ∈ enrich markets now, 0 < v.hours_until_close := by
  intro v hv
  simp only [enrich] at hv
  rcases List.mem_filterMap.1 hv with ⟨m, -, hm⟩
  by_cases h : 0 < ((m.close_time - now : Int) : Rat) / 3600
  · simp only [h, if_pos] at hm
    cases hm
    exact h
  · simp only [h, if_neg, if_false] at hm
    exact Option.noConfusion hm

/-- Witness for claim C3: the concrete view of the half-hour market produced
by enrichment has positive time to close. -/
theorem enrich_pos_witness : 0 < view05.hours_until_close :=
  enrich_pos [mkt05, mkt25, mktPast] 0 view05 (by rw [enrich_three]; simp)

/-! ### Claim C4 -/

lemma viewLE_trans : ∀ (a b c : MarketView),
    viewLE a b = true → viewLE b c = true → viewLE a c = true := by
  intro a b c hab hbc
  simp only [viewLE, decide_eq_true_eq] at hab hbc ⊢
  exact le_trans hab hbc

lemma viewLE_total : ∀ (a b : MarketView), viewLE a b || viewLE b a := by
  intro a b
  simp only [viewLE, Bool.or_eq_true, decide_eq_true_eq]
  exact le_total _ _

/-- Claim C4: the sorter returns a permutation of its input that is
non-decreasing in `hours_until_close`, and it is stable — any two views with
equal `hours_until_close` that appear in the input in a given order appear in
the output in that same relative order. -/
theorem sort_views_spec (l : List MarketView) :
    (sortViews l).Perm l ∧
    List.Pairwise (fun a b => a.hours_until_close ≤ b.hours_until_close) (sortViews l) ∧
    (∀ a b : MarketView, List.Sublist [a, b] l →
        a.hours_until_close = b.hours_until_close →
        List.Sublist [a, b] (sortViews l)) := by
  refine ⟨?_, ?_, ?_⟩
  · rw [sortViews]
    exact List.mergeSort_perm l viewLE
  · rw [sortViews]
    have h := List.sorted_mergeSort viewLE_trans viewLE_total l
    exact h.imp (by
      intro a b hab
      simpa only [viewLE, decide_eq_true_eq] using hab)
  · intro a b hsub heq
    rw [sortViews]
    exact List.pair_sublist_mergeSort viewLE_trans viewLE_total
      (by simp [viewLE, heq]) hsub

/-- Views sharing `hours_until_close = 1`, used to witness stability. -/
def tieFirst : MarketView :=
  { market := mkt05, hours_until_close := 1, close_time := 1800 }

/-- Second view with `hours_until_close = 1`. -/
def tieSecond : MarketView :=
  { market := mkt25, hours_until_close := 1, close_time := 90000 }

/-- A view with a larger key placed in front of the tied pair. -/
def tieOther : MarketView :=
  { market := mktPast, hours_until_close := 2, close_time := -3600 }

/-- Witness for claim C4: the tied pair keeps its input order in the sorted
output of a concrete three-element list. -/
theorem sort_views_witness :
    List.Sublist [tieFirst, tieSecond] (sortViews [tieOther, tieFirst, tieSecond]) :=
  (sort_views_spec [tieOther, tieFirst, tieSecond]).2.2 tieFirst tieSecond
    (List.Sublist.cons tieOther (List.Sublist.refl [tieFirst, tieSecond])) rfl

/-! ### Claim C5 -/

/-- Claim C5: `format_time_until` truncates each displayed component toward
zero, using minutes below one hour, hours and minutes below 24 hours, and days
and hours from 24 hours on: 0.5 h gives "30m", exactly 1.0 h gives "1h 0m"
(not "60m"), 23.999 h gives "23h 59m", exactly 24.0 h gives "1d 0h", and
49.5 h gives "2d 1h". -/
theorem format_time_until_spec :
    format_time_until (0.5 : Rat) = "30m" ∧
    format_time_until (1.0 : Rat) = "1h 0m" ∧
    format_time_until (23.999 : Rat) = "23h 59m" ∧
    format_time_until (24.0 : Rat) = "1d 0h" ∧
    format_time_until (49.5 : Rat) = "2d 1h" := by
  refine ⟨?_, ?_, ?_, ?_, ?_⟩ <;>
    · rw [format_time_until]
      norm_num [pyInt, pyMod]
      decide

/-! ### Claim C6 -/

/-- Market quoted 40 bid / 55 ask. -/
def mktSp15 : Market :=
  { title := "wide", yes_bid := some 40, yes_ask := some 55, no_bid := none,
    last_price := none, close_time := 0 }

/-- Market quoted 40 bid / 45 ask. -/
def mktSp5 : Market :=
  { title := "tight", yes_bid := some 40, yes_ask := some 45, no_bid := none,
    last_price := none, close_time := 0 }

/-- Market with a zero bid and a 50 ask: no quote. -/
def mktSp0 : Market :=
  { title := "no quote", yes_bid := some 0, yes_ask := some 50, no_bid := none,
    last_price := none, close_time := 0 }

/-- Claim C6: the spread is `yes_ask - yes_bid` when both quotes are present
and non-zero and `0` otherwise, `is_wide` holds exactly when the spread
exceeds the 10-cent threshold, and on the three specified inputs the results
are `(15, true)`, `(5, false)` and `(0, false)`. -/
theorem calculate_spread_spec :
    (∀ m : Market,
        ((calculate_spread m).2 = true ↔ SPREAD_THRESHOLD_CENTS < (calculate_spread m).1)) ∧
    (∀ (m : Market) (b a : Nat), m.yes_bid = some b → m.yes_ask = some a →
        b ≠ 0 → a ≠ 0 → (calculate_spread m).1 = (a : Int) - (b : Int)) ∧
    (∀ m : Market, (m.yes_bid.getD 0 = 0 ∨ m.yes_ask.getD 0 = 0) →
        (calculate_spread m).1 = 0) ∧
    calculate_spread mktSp15 = (15, true) ∧
    calculate_spread mktSp5 = (5, false) ∧
    calculate_spread mktSp0 = (0, false) := by
  refine ⟨?_, ?_, ?_, by decide, by decide, by decide⟩
  · intro m
    rw [spread_snd_eq]
    simp only [decide_eq_true_eq]
  · intro m b a hb ha hb0 ha0
    simp [calculate_spread, hb, ha, hb0, ha0]
  · intro m h
    have h' : ¬ (m.yes_bid.getD 0 ≠ 0 ∧ m.yes_ask.getD 0 ≠ 0) := by tauto
    simp [calculate_spread, h']

/-- Witness for claim C6: applying the spread rule to the 40/55 market gives
the difference of ask and bid. -/
theorem calculate_spread_witness :
    (calculate_spread mktSp15).1 = ((55 : Nat) : Int) - ((40 : Nat) : Int) :=
  calculate_spread_spec.2.1 mktSp15 40 55 rfl rfl (by decide) (by decide)

/-! ### Claim C7 -/

/-- Market with no bid and a last trade at 62 cents. -/
def mktLast62 : Market :=
  { title := "last trade", yes_bid := none, yes_ask := none, no_bid := none,
    last_price := some 62, close_time := 0 }

/-- Claim C7: the displayed yes price is `yes_bid` when present and non-zero,
else `last_price` when present and non-zero, else a dash; the displayed no
price is `no_bid` when present and non-zero, else `100 - yes_price` when the
yes price is non-zero (a dash when that difference is zero, by the shared
zero-renders-as-dash rule), else a dash; in particular the market with no bid
and `last_price = 62` renders "$0.62" and "$0.38". -/
theorem price_fallback_spec :
    (∀ (m : Market) (b : Nat), m.yes_bid = some b → b ≠ 0 →
        yesCell m = cents_to_dollars (b : Int)) ∧
    (∀ (m : Market) (p : Nat), m.yes_bid.getD 0 = 0 → m.last_price = some p →
        p ≠ 0 → yesCell m = cents_to_dollars (p : Int)) ∧
    (∀ m : Market, m.yes_bid.getD 0 = 0 → m.last_price.getD 0 = 0 →
        yesCell m = "-") ∧
    (∀ (m : Market) (nb : Nat), m.no_bid = some nb → nb ≠ 0 →
        noCell m = cents_to_dollars (nb : Int)) ∧
    (∀ m : Market, m.no_bid.getD 0 = 0 → yes_price m ≠ 0 → yes_price m ≠ 100 →
        noCell m = cents_to_dollars (100 - yes_price m)) ∧
    (∀ m : Market, m.no_bid.getD 0 = 0 → yes_price m = 0 → noCell m = "-") ∧
    yesCell mktLast62 = "$0.62" ∧ noCell mktLast62 = "$0.38" := by
  refine ⟨?_, ?_, ?_, ?_, ?_, ?_, by decide, by decide⟩
  · intro m b hb hb0
    have hy : yes_price m = (b : Int) := by
      rw [yes_price, truthyOr_eq_val _ _ b hb hb0]
    rw [yesCell, hy, if_pos (by exact_mod_cast hb0)]
  · intro m p hb hp hp0
    have hy : yes_price m = (p : Int) := by
      rw [yes_price, truthyOr_eq_default _ _ hb, truthyOr_eq_val _ _ p hp hp0]
    rw [yesCell, hy, if_pos (by exact_mod_cast hp0)]
  · intro m hb hp
    have hy : yes_price m = 0 := by
      rw [yes_price, truthyOr_eq_default _ _ hb, truthyOr_eq_default _ _ hp]
    simp [yesCell, hy]
  · intro m nb hnb hnb0
    have hn : no_price m = (nb : Int) := by
      rw [no_price, truthyOr_eq_val _ _ nb hnb hnb0]
    rw [noCell, hn, if_pos (by exact_mod_cast hnb0)]
  · intro m hnb hy hy100
    have hn : no_price m = 100 - yes_price m := by
      rw [no_price, truthyOr_eq_default _ _ hnb, if_pos hy]
    rw [noCell, hn, if_pos (by omega)]
  · intro m hnb hy
    have hn : no_price m = 0 := by
      rw [no_price, truthyOr_eq_default _ _ hnb, if_neg (by simp [hy])]
    simp [noCell, hn]

/-- Witness for claim C7: the yes-price fallback applied at the concrete
market with only a last trade of 62 cents. -/
theorem price_fallback_witness :
    yesCell mktLast62 = cents_to_dollars ((62 : Nat) : Int) :=
  price_fallback_spec.2.1 mktLast62 62 rfl rfl (by decide)

/-! ### Claim C8 -/

/-- A 60-character title. -/
def title60 : String :=
  "012345678901234567890123456789012345678901234567890123456789"

/-- Claim C8: a title longer than 47 characters is cut to its first 47
characters and suffixed with the ellipsis marker, a title of at most 47
characters is rendered unchanged, and the concrete 60-character title renders
as its first 47 characters plus the marker. -/
theorem truncate_title_spec :
    (∀ t : String, 47 < t.length → truncTitle t = t.take 47 ++ "...") ∧
    (∀ t : String, t.length ≤ 47 → truncTitle t = t) ∧
    truncTitle title60 = title60.take 47 ++ "..." := by
  refine ⟨?_, ?_, ?_⟩
  · intro t h
    rw [truncTitle, if_pos h]
  · intro t h
    rw [truncTitle, if_neg (by omega)]
  · rw [truncTitle, if_pos (by decide)]

/-- Witness for claim C8: the truncation branch applied at the concrete
60-character title. -/
theorem truncate_title_witness :
    truncTitle title60 = title60.take 47 ++ "..." :=
  truncate_title_spec.1 title60 (by decide)

/-! ### Claim C9 -/

lemma flagged_iff (m : Market) :
    Flagged (spreadCell m) ↔ (calculate_spread m).2 = true := by
  cases hw : (calculate_spread m).2 with
  | true =>
    refine iff_of_true ?_ rfl
    rw [spreadCell]
    simp only [hw, if_true]
    exact ⟨_, by rw [String.append_assoc]⟩
  | false =>
    refine iff_of_false ?_ (by simp)
    rw [spreadCell]
    simp only [hw, Bool.false_eq_true, if_false]
    split
    · rcases cents_to_dollars_dollar (calculate_spread m).1 with ⟨r, hr⟩
      rw [hr]
      exact not_flagged_dollar r
    · exact not_flagged_dash

/-- Claim C9: for non-empty input the renderer emits the table of rendered
rows together with the always-present total-count line and an optional
wide-spread line; exactly the rows whose market is wide carry the flagged
style on the spread cell; the wide-spread counter equals the number of such
rows; and the wide-spread line is present exactly when that count is
non-zero. -/
theorem display_summary_spec (l : List MarketView) (h : l ≠ []) :
    display_markets l =
      DisplayOutput.table (l.map renderRow) (totalLine l)
        (if 0 < wideCount l then some (wideLine (wideCount l)) else none) ∧
    (∀ v ∈ l, (Flagged (spreadCell v.market) ↔ (calculate_spread v.market).2 = true)) ∧
    wideCount l = l.countP (fun v => (calculate_spread v.market).2) ∧
    ((if 0 < wideCount l then some (wideLine (wideCount l)) else none) ≠ none ↔
      0 < wideCount l) := by
  refine ⟨?_, ?_, rfl, ?_⟩
  · cases l with
    | nil => exact absurd rfl h
    | cons a t => rfl
  · intro v _
    exact flagged_iff v.market
  · by_cases hw : 0 < wideCount l
    · simp [hw]
    · simp [hw]

/-- The enriched view of the wide-spread market `mktSp15`. -/
def viewWide : MarketView :=
  { market := mktSp15, hours_until_close := 1, close_time := 0 }

/-- Witness for claim C9: the rendered output at the concrete singleton list
holding the wide-spread 40/55 market. -/
theorem display_summary_witness :
    display_markets [viewWide] =
      DisplayOutput.table ([viewWide].map renderRow) (totalLine [viewWide])
        (if 0 < wideCount [viewWide] then some (wideLine (wideCount [viewWide]))
         else none) :=
  (display_summary_spec [viewWide] (by simp)).1

/-! ### Claim C10 -/

/-- Claim C10: a crossed quote — both sides present and non-zero with
`yes_ask < yes_bid` — yields a strictly negative spread that is not flagged
wide, and its spread cell renders as the placeholder dash, indistinguishable
from the spread cell of any market with no bid quote at all. -/
theorem crossed_spread_spec (m : Market) (b a : Nat)
    (hb : m.yes_bid = some b) (ha : m.yes_ask = some a)
    (hb0 : b ≠ 0) (ha0 : a ≠ 0) (hlt : a < b) :
    (calculate_spread m).1 < 0 ∧ (calculate_spread m).2 = false ∧
    spreadCell m = "-" ∧
    (∀ m2 : Market, m2.yes_bid = none → spreadCell m2 = spreadCell m) := by
  have hsp : (calculate_spread m).1 = (a : Int) - (b : Int) := by
    simp [calculate_spread, hb, ha, hb0, ha0]
  have hneg : (calculate_spread m).1 < 0 := by
    rw [hsp]
    omega
  have hw : (calculate_spread m).2 = false := by
    rw [spread_snd_eq]
    simp only [decide_eq_false_iff_not, not_lt]
    show (calculate_spread m).1 ≤ (10 : Int)
    omega
  have hcell : spreadCell m = "-" := by
    rw [spreadCell]
    simp only [hw, Bool.false_eq_true, if_false]
    rw [if_neg (by omega)]
  refine ⟨hneg, hw, hcell, ?_⟩
  intro m2 h2
  have hsp2 : (calculate_spread m2).1 = 0 := by
    simp [calculate_spread, h2]
  have hw2 : (calculate_spread m2).2 = false := by
    rw [spread_snd_eq]
    simp only [decide_eq_false_iff_not, not_lt]
    show (calculate_spread m2).1 ≤ (10 : Int)
    omega
  have hcell2 : spreadCell m2 = "-" := by
    rw [spreadCell]
    simp only [hw2, Bool.false_eq_true, if_false]
    rw [if_neg (by omega)]
  rw [hcell2, hcell]

/-- Market with a crossed 55 bid / 40 ask quote. -/
def mktCrossed : Market :=
  { title := "crossed", yes_bid := some 55, yes_ask := some 40, no_bid := none,
    last_price := none, close_time := 0 }

/-- Witness for claim C10: the crossed 55/40 market renders a dash in the
spread cell. -/
theorem crossed_spread_witness : spreadCell mktCrossed = "-" :=
  (crossed_spread_spec mktCrossed 55 40 rfl rfl (by decide) (by decide)
    (by decide)).2.2.1
